import Mathlib

/-!
Verification of the MRR / cohort analytics pipeline
(`scripts/stripe_to_bigquery.py`, `scripts/generate_test_data.py`).

Dates are modelled at the granularity the SQL works at (`DATE(...)`): a
`Date` is a month index (months since an arbitrary epoch) together with a
day offset inside the month (`0` = first of the month).  The SQL order on
dates is the lexicographic order on these pairs; `DATE_TRUNC(d, MONTH)` is
`⟨d.m, 0⟩` and `DATE_ADD(month_start, INTERVAL 1 MONTH)` sends `⟨m, 0⟩` to
`⟨m + 1, 0⟩`.  Money amounts are rationals (the Python pipeline uses
floating point, but every claim is about exact arithmetic identities).
-/

structure Date where
  m : Int
  d : Nat
deriving DecidableEq

/-- SQL `a <= b` on dates: lexicographic order on (month, day). -/
def dle (a b : Date) : Bool :=
  decide (a.m < b.m ∨ (a.m = b.m ∧ a.d ≤ b.d))

/-- SQL `a < b` on dates. -/
def dlt (a b : Date) : Bool :=
  decide (a.m < b.m ∨ (a.m = b.m ∧ a.d < b.d))

/-- SQL `LEAST` / `MIN` aggregation step on dates. -/
def dmin (a b : Date) : Date :=
  if dlt b a then b else a

/-- A row of the extracted `subscriptions` table, with exactly the columns the
MRR and cohort queries read. -/
structure Subscription where
  subscription_id : Nat
  customer_id : Nat
  status : String
  start_date : Date
  ended_at : Option Date
  canceled_at : Option Date
  mrr_amount : ℚ
deriving DecidableEq

/-- `was_active_in_month` from `calculate_mrr_metrics` (stripe_to_bigquery.py
lines 682–687): `DATE(start_date) <= DATE_ADD(month_start, INTERVAL 1 MONTH)
AND (canceled_at IS NULL OR DATE(canceled_at) >= DATE_ADD(month_start,
INTERVAL 1 MONTH))`. -/
def wasActiveInMonth (s : Subscription) (m : Int) : Bool :=
  dle s.start_date ⟨m + 1, 0⟩ &&
    (match s.canceled_at with
     | none => true
     | some c => dle ⟨m + 1, 0⟩ c)

/-- `DATE(start_date) >= month_start AND DATE(start_date) <
DATE_ADD(month_start, INTERVAL 1 MONTH)` (new-this-month test, lines
698–700). -/
def startedInMonth (s : Subscription) (m : Int) : Bool :=
  dle ⟨m, 0⟩ s.start_date && dlt s.start_date ⟨m + 1, 0⟩

/-- `canceled_at IS NOT NULL AND DATE(canceled_at) >= month_start AND
DATE(canceled_at) < DATE_ADD(month_start, INTERVAL 1 MONTH)` (churn test,
lines 701–704). -/
def canceledInMonth (s : Subscription) (m : Int) : Bool :=
  match s.canceled_at with
  | none => false
  | some c => dle ⟨m, 0⟩ c && dlt c ⟨m + 1, 0⟩

/-- `SUM(CASE WHEN was_active_in_month THEN mrr_amount ELSE 0 END)`. -/
def totalMrr (subs : List Subscription) (m : Int) : ℚ :=
  ((subs.filter (fun s => wasActiveInMonth s m)).map (fun s => s.mrr_amount)).sum

/-- `COUNT(DISTINCT CASE WHEN was_active_in_month THEN customer_id END)`. -/
def activeCustomers (subs : List Subscription) (m : Int) : Nat :=
  ((subs.filter (fun s => wasActiveInMonth s m)).map (fun s => s.customer_id)).dedup.length

/-- `COUNT(DISTINCT ...)` over the new-this-month test. -/
def newCustomers (subs : List Subscription) (m : Int) : Nat :=
  ((subs.filter (fun s => startedInMonth s m)).map (fun s => s.customer_id)).dedup.length

/-- `COUNT(DISTINCT ...)` over the churned-this-month test. -/
def churnedCustomers (subs : List Subscription) (m : Int) : Nat :=
  ((subs.filter (fun s => canceledInMonth s m)).map (fun s => s.customer_id)).dedup.length

/-- `SUM(CASE WHEN started-this-month THEN mrr_amount ELSE 0 END)`. -/
def newMrr (subs : List Subscription) (m : Int) : ℚ :=
  ((subs.filter (fun s => startedInMonth s m)).map (fun s => s.mrr_amount)).sum

/-- `SUM(CASE WHEN churned-this-month THEN mrr_amount ELSE 0 END)`. -/
def churnedMrr (subs : List Subscription) (m : Int) : ℚ :=
  ((subs.filter (fun s => canceledInMonth s m)).map (fun s => s.mrr_amount)).sum

/-- BigQuery `SAFE_DIVIDE` composed with the Python `float(x or 0)` guard:
division result, with a NULL (zero-divisor) result replaced by `0`. -/
def safeDiv (a b : ℚ) : ℚ :=
  if b = 0 then 0 else a / b

/-- `[lo, lo + 1, ..., lo + n - 1]`. -/
def listInts (lo : Int) : Nat → List Int
  | 0 => []
  | n + 1 => lo :: listInts (lo + 1) n

/-- `GENERATE_DATE_ARRAY(lo, hi, INTERVAL 1 MONTH)` on month starts:
the inclusive, gap-free sequence of month indices from `lo` to `hi`. -/
def monthRange (lo hi : Int) : List Int :=
  listInts lo (hi + 1 - lo).toNat

/-- Month of `MIN(DATE(start_date))` over the subscriptions table
(`DATE_TRUNC(min_date, MONTH)`); junk value `0` for an empty table, in which
case the query produces no months at all. -/
def minStartMonth (subs : List Subscription) : Int :=
  match subs.map (fun s => s.start_date) with
  | [] => 0
  | d :: ds => (ds.foldl dmin d).m

/-- The generated month series of `calculate_mrr_metrics`: from the earliest
subscription start month to the current month, inclusive. -/
def monthSeq (subs : List Subscription) (todayM : Int) : List Int :=
  match subs with
  | [] => []
  | _ => monthRange (minStartMonth subs) todayM

/-- The emission filter `WHERE active_customers > 0 OR new_customers > 0 OR
churned_customers > 0` (line 733). -/
def emitP (subs : List Subscription) (m : Int) : Bool :=
  decide (0 < activeCustomers subs m) || decide (0 < newCustomers subs m) ||
    decide (0 < churnedCustomers subs m)

/-- The emitted month buckets, in ascending order. -/
def emittedMonths (subs : List Subscription) (todayM : Int) : List Int :=
  (monthSeq subs todayM).filter (fun m => emitP subs m)

/-- One row of `mrr_monthly_summary`. -/
structure MrrRow where
  month_start : Int
  total_mrr : ℚ
  new_mrr : ℚ
  expansion_mrr : ℚ
  contraction_mrr : ℚ
  churned_mrr : ℚ
  net_new_mrr : ℚ
  active_customers : Nat
  new_customers : Nat
  churned_customers : Nat
  average_revenue_per_user : ℚ
  churn_rate : ℚ
  growth_rate : ℚ
deriving DecidableEq

/-- The Python growth-rate computation (lines 745–748): `growth_rate = 0.0`
unless the LAG value exists and is `> 0`, in which case
`((total_mrr - prev) / prev) * 100`. -/
def growthRate (prev : Option ℚ) (total : ℚ) : ℚ :=
  match prev with
  | none => 0
  | some p => if 0 < p then (total - p) / p * 100 else 0

/-- Assemble one summary row for month `m` (growth rate passed in, since it
depends on the previous emitted row). -/
def mkMrrRow (subs : List Subscription) (m : Int) (g : ℚ) : MrrRow :=
  { month_start := m
    total_mrr := totalMrr subs m
    new_mrr := newMrr subs m
    expansion_mrr := 0
    contraction_mrr := 0
    churned_mrr := churnedMrr subs m
    net_new_mrr := newMrr subs m - churnedMrr subs m
    active_customers := activeCustomers subs m
    new_customers := newCustomers subs m
    churned_customers := churnedCustomers subs m
    average_revenue_per_user := safeDiv (totalMrr subs m) (activeCustomers subs m)
    churn_rate := safeDiv (churnedCustomers subs m) (activeCustomers subs m)
    growth_rate := g }

/-- Walk the emitted months carrying `LAG(total_mrr)` (the previous emitted
row's total, `none` before the first row). -/
def mrrRows (subs : List Subscription) : Option ℚ → List Int → List MrrRow
  | _, [] => []
  | acc, m :: ms =>
      mkMrrRow subs m (growthRate acc (totalMrr subs m)) ::
        mrrRows subs (some (totalMrr subs m)) ms

/-- The full `mrr_monthly_summary` result set of `calculate_mrr_metrics`. -/
def mrrSummary (subs : List Subscription) (todayM : Int) : List MrrRow :=
  mrrRows subs none (emittedMonths subs todayM)

/-- The per-subscription membership test inside the cohort query's
`EXISTS` (calculate_cohort_analysis, lines 831–838): `DATE(s.start_date) <=
DATE_ADD(cp.month_start, INTERVAL 1 MONTH) AND (s.canceled_at IS NULL OR
DATE(s.canceled_at) >= cp.month_start)`. -/
def cohortActiveSub (s : Subscription) (m : Int) : Bool :=
  dle s.start_date ⟨m + 1, 0⟩ &&
    (match s.canceled_at with
     | none => true
     | some c => dle ⟨m, 0⟩ c)

/-- `DATE_TRUNC(MIN(DATE(start_date)), MONTH)` per customer: the cohort month
of a customer (none if the customer has no subscription). -/
def cohortMonth (subs : List Subscription) (cust : Nat) : Option Int :=
  match (subs.filter (fun s => s.customer_id == cust)).map (fun s => s.start_date) with
  | [] => none
  | d :: ds => some ((ds.foldl dmin d).m)

/-- `EXISTS (SELECT 1 FROM subscriptions s WHERE s.customer_id = ... AND
<cohort activity predicate>)`: the customer-level activity test. -/
def customerActiveAt (subs : List Subscription) (cust : Nat) (m : Int) : Bool :=
  subs.any (fun s => s.customer_id == cust && cohortActiveSub s m)

/-- The distinct customers belonging to cohort `coh`. -/
def cohortCustomers (subs : List Subscription) (coh : Int) : List Nat :=
  ((subs.map (fun s => s.customer_id)).dedup).filter
    (fun cust => decide (cohortMonth subs cust = some coh))

/-- `SUM(is_active)` for cohort `coh` at period `p`: the number of cohort
customers active in month `coh + p` under the cohort activity predicate. -/
def cohortActiveCount (subs : List Subscription) (coh : Int) (p : Nat) : Nat :=
  ((cohortCustomers subs coh).filter
    (fun cust => customerActiveAt subs cust (coh + (p : Int)))).length

/-!
Extraction: `_add_subscription_to_data` (stripe_to_bigquery.py lines
509–586).  A raw Stripe subscription object is modelled with exactly the
fields the helper reads; optional fields are `Option`-valued (`none` =
missing/null).  `recurring` is `Option (Option String)`: `none` models a
missing or empty (falsy) `recurring` dict, `some none` a present dict with
no `interval` key (Python then defaults the interval to `"month"`), and
`some (some i)` an explicit interval.  Timestamps are already `Date`s
(`datetime.fromtimestamp` is an order-isomorphism onto the dates the SQL
later compares).
-/

structure RawItem where
  unit_amount : Option ℚ
  quantity : Option ℚ
  recurring : Option (Option String)
deriving DecidableEq

structure RawSub where
  id : Nat
  customer : Nat
  status : String
  items : List RawItem
  start_date : Option Date
  ended_at : Option Date
  canceled_at : Option Date
deriving DecidableEq

/-- `unit_amount = price_data.get("unit_amount", 0) or 0`. -/
def resolvedUnit (it : RawItem) : ℚ :=
  match it.unit_amount with
  | none => 0
  | some v => v

/-- `quantity = item.get("quantity", 1) or 1` (Python truthiness: a stored
`0` is falsy and also falls back to `1`). -/
def resolvedQty (it : RawItem) : ℚ :=
  match it.quantity with
  | none => 1
  | some v => if v = 0 then 1 else v

/-- The monthly-equivalent MRR normalization of `_add_subscription_to_data`
(lines 517–556): `month` → `unit_amount * quantity / 100`, `year` →
`unit_amount * quantity / 12 / 100`, `week` → `unit_amount * quantity *
4.33 / 100`; `0` when there is no item, no recurring data, or an
unrecognized interval. -/
def computeMrrAmount (r : RawSub) : ℚ :=
  match r.items with
  | [] => 0
  | item :: _ =>
    match item.recurring with
    | none => 0
    | some rdict =>
      let interval := rdict.getD "month"
      if interval = "month" then resolvedUnit item * resolvedQty item / 100
      else if interval = "year" then resolvedUnit item * resolvedQty item / 12 / 100
      else if interval = "week" then resolvedUnit item * resolvedQty item * (433 / 100) / 100
      else 0

/-- The subscription record appended by `_add_subscription_to_data` (lines
564–584): a missing `start_date` falls back to the extraction time, a
missing `canceled_at` / `ended_at` is stored as NULL. -/
def mkRecord (r : RawSub) (extractionTime : Date) : Subscription :=
  { subscription_id := r.id
    customer_id := r.customer
    status := r.status
    start_date := r.start_date.getD extractionTime
    ended_at := r.ended_at
    canceled_at := r.canceled_at
    mrr_amount := computeMrrAmount r }

/-- `_add_subscription_to_data`: skip if the subscription id was already
added (lines 511–514), otherwise append the record. -/
def addSubscriptionToData (r : RawSub) (data : List Subscription)
    (extractionTime : Date) : List Subscription :=
  if r.id ∈ data.map (fun s => s.subscription_id) then data
  else data ++ [mkRecord r extractionTime]

/-- The subscription accumulation of `extract_stripe_data` (lines 386–431):
every subscription object any of the three extraction methods encounters is
pushed through `_add_subscription_to_data`, starting from an empty list.
`rs` is the combined stream, in encounter order, duplicates included. -/
def extractSubscriptions (rs : List RawSub) (extractionTime : Date) : List Subscription :=
  rs.foldl (fun d r => addSubscriptionToData r d extractionTime) []

/-!
Scenario generator: `generate_customer_scenarios` and its module-level
schedules (generate_test_data.py lines 64–99 and 344–441).  Python dicts
iterate in insertion order, so the schedules are association lists.  The
weighted-random company name, email and plan assignment is independent of
the status scheduling and does not appear in any claim, so those fields are
omitted from the scenario record.
-/

def ACQUISITION_BY_MONTH : List (Nat × Nat) :=
  [(0, 8), (1, 15), (2, 25), (3, 12), (4, 18), (5, 22)]

def CANCELLATION_SCHEDULE : List (Nat × List Nat) :=
  [(1, [0, 0]), (2, [0, 1, 1]), (3, [1, 1, 2, 2, 2]), (4, [2, 2, 3, 3, 3]), (5, [3, 4, 4, 4, 4])]

def PAST_DUE_SCHEDULE : List (Nat × List Nat) :=
  [(2, [1, 1]), (3, [0, 2, 2]), (4, [2, 3, 3]), (5, [4, 4])]

/-- Flatten a schedule to `(acquisition_month, event_month)` pairs (lines
368–377) and group them by acquisition month preserving order (lines
380–390): the event months scheduled for one acquisition cohort. -/
def schedByAcq (sched : List (Nat × List Nat)) (acq : Nat) : List Nat :=
  (((sched.map (fun p => p.2.map (fun a => (a, p.1)))).flatten).filter
    (fun q => q.1 == acq)).map (fun q => q.2)

structure Scenario where
  acquisition_month : Nat
  status : String
  cancel_after_months : Option Int
  past_due_month : Option Nat
  customer_index : Nat
deriving DecidableEq

/-- The per-cohort loop body (lines 400–430): for each of the `n` customers
of an acquisition month, drain the cancellation list first (status
`canceled`, `cancel_after_months = cancel_month - acq_month`), then the
past-due list, then default to `active`. -/
def genMonth (acq : Nat) : Nat → Nat → List Nat → List Nat → List Scenario
  | _, 0, _, _ => []
  | idx, n + 1, c :: cs, pds =>
      ⟨acq, "canceled", some ((c : Int) - (acq : Int)), none, idx⟩ ::
        genMonth acq (idx + 1) n cs pds
  | idx, n + 1, [], p :: ps =>
      ⟨acq, "past_due", none, some p, idx⟩ :: genMonth acq (idx + 1) n [] ps
  | idx, n + 1, [], [] =>
      ⟨acq, "active", none, none, idx⟩ :: genMonth acq (idx + 1) n [] []

/-- The outer loop over `CUSTOMER_ACQUISITION_BY_MONTH` (line 395), carrying
the running `customer_index`. -/
def genAll : List (Nat × Nat) → Nat → List Scenario
  | [], _ => []
  | (acq, n) :: rest, idx =>
      genMonth acq idx n (schedByAcq CANCELLATION_SCHEDULE acq) (schedByAcq PAST_DUE_SCHEDULE acq)
        ++ genAll rest (idx + n)

/-- `generate_customer_scenarios(NUM_CUSTOMERS, prices)` restricted to the
fields the claims are about. -/
def generateCustomerScenarios : List Scenario :=
  genAll ACQUISITION_BY_MONTH 0

/-!
Claim theorems.
-/

/-- Claim C4: running the scenario generator with the fixed acquisition quota
(sum 100), the fixed 20-entry cancellation schedule and the fixed 10-entry
past-due schedule yields exactly 100 scenarios — 70 `active`, 20 `canceled`,
10 `past_due` — and every scheduled event's month index is at least the
scenario's acquisition-month index (for a cancellation the event month is
`acquisition_month + cancel_after_months`, for a past-due it is
`past_due_month`). -/
theorem c4_scheduler_exactness :
    generateCustomerScenarios.length = 100 ∧
    (generateCustomerScenarios.filter (fun s => decide (s.status = "active"))).length = 70 ∧
    (generateCustomerScenarios.filter (fun s => decide (s.status = "canceled"))).length = 20 ∧
    (generateCustomerScenarios.filter (fun s => decide (s.status = "past_due"))).length = 10 ∧
    generateCustomerScenarios.all (fun s =>
      (match s.cancel_after_months with
       | none => true
       | some k => decide ((s.acquisition_month : Int) ≤ (s.acquisition_month : Int) + k)) &&
      (match s.past_due_month with
       | none => true
       | some pm => decide (s.acquisition_month ≤ pm))) = true := by
  decide

theorem addSub_id_nodup (r : RawSub) (T : Date) (data : List Subscription)
    (h : (data.map (fun s => s.subscription_id)).Nodup) :
    ((addSubscriptionToData r data T).map (fun s => s.subscription_id)).Nodup := by
  by_cases hmem : r.id ∈ data.map (fun s => s.subscription_id)
  · simpa [addSubscriptionToData, hmem] using h
  · rw [addSubscriptionToData, if_neg hmem, List.map_append]
    refine List.Nodup.append h (by simp) ?_
    intro a ha hb
    simp only [List.map_cons, List.map_nil, List.mem_singleton] at hb
    subst hb
    exact hmem (by simpa [mkRecord] using ha)

theorem extract_fold_nodup (T : Date) :
    ∀ (rs : List RawSub) (data : List Subscription),
      (data.map (fun s => s.subscription_id)).Nodup →
      (((rs.foldl (fun d r => addSubscriptionToData r d T) data)).map
        (fun s => s.subscription_id)).Nodup := by
  intro rs
  induction rs with
  | nil => intro data h; simpa using h
  | cons r rs ih => intro data h; exact ih _ (addSub_id_nodup r T data h)

/-- Claim C10: however the three extraction methods interleave and repeat the
subscriptions they encounter, the accumulated list holds at most one record
per subscription id (the ids of the result are pairwise distinct). -/
theorem c10_extraction_dedup (rs : List RawSub) (T : Date) :
    ((extractSubscriptions rs T).map (fun s => s.subscription_id)).Nodup :=
  extract_fold_nodup T rs [] (by simp)

def subC1 : Subscription := ⟨1, 1, "canceled", ⟨0, 14⟩, none, some ⟨1, 9⟩, 79⟩

/-- Claim C1 counterexample: for the subscription started on day 14 of month 0
and canceled on day 9 of month 1, at month bucket 1 the cohort query's
membership test returns `true` while the MRR query's `was_active_in_month`
returns `false` — the two predicates are not identical (the cohort query
compares `canceled_at` against the month **start**, the MRR query against the
month **end**). -/
theorem c1_counterexample :
    cohortActiveSub subC1 1 = true ∧ wasActiveInMonth subC1 1 = false := by
  decide

/-- Claim C1 (amended): the cohort computation's membership test is
`start_date <= M_end AND (canceled_at IS NULL OR canceled_at >= M_start)`.
It agrees with the MRR engine's `was_active_in_month` exactly on the
subscriptions not canceled inside `[M_start, M_end)`; a subscription whose
cancellation falls inside the month is counted active by the cohort engine
but not by the MRR engine. -/
theorem c1_predicates_agree_amended (s : Subscription) (m : Int)
    (h : canceledInMonth s m = false) :
    cohortActiveSub s m = wasActiveInMonth s m := by
  unfold cohortActiveSub wasActiveInMonth
  cases hc : s.canceled_at with
  | none => rfl
  | some c =>
    rw [canceledInMonth, hc] at h
    congr 1
    rw [Bool.eq_iff_iff]
    simp only [dle, dlt, Bool.and_eq_false_iff, decide_eq_false_iff_not, decide_eq_true_eq] at h ⊢
    rcases c with ⟨cm, cd⟩
    constructor
    · intro h1
      rcases h with h | h <;> omega
    · intro h1
      omega

def subW1 : Subscription := ⟨1, 1, "active", ⟨0, 3⟩, none, some ⟨5, 0⟩, 29⟩

theorem c1_amended_witness : cohortActiveSub subW1 0 = wasActiveInMonth subW1 0 :=
  c1_predicates_agree_amended subW1 0 (by decide)

/-- Claim C2: the MRR engine's active-in-month predicate holds iff
`start_date <= M_end` and (`canceled_at` is null or `canceled_at >= M_end`);
in particular a subscription starting exactly at `M_start` with no
cancellation is active, one canceled exactly at `M_end` is active (provided
it started by `M_end`), and one canceled strictly inside `(M_start, M_end)`
is not active. -/
theorem c2_active_predicate (m : Int) (s : Subscription) :
    (wasActiveInMonth s m = true ↔
      (dle s.start_date ⟨m + 1, 0⟩ = true ∧
        ∀ c, s.canceled_at = some c → dle ⟨m + 1, 0⟩ c = true)) ∧
    (s.start_date = ⟨m, 0⟩ → s.canceled_at = none → wasActiveInMonth s m = true) ∧
    (∀ c, s.canceled_at = some c → c = ⟨m + 1, 0⟩ → dle s.start_date ⟨m + 1, 0⟩ = true →
      wasActiveInMonth s m = true) ∧
    (∀ c, s.canceled_at = some c → dlt ⟨m, 0⟩ c = true → dlt c ⟨m + 1, 0⟩ = true →
      wasActiveInMonth s m = false) := by
  refine ⟨?_, ?_, ?_, ?_⟩
  · unfold wasActiveInMonth
    cases hc : s.canceled_at with
    | none => simp
    | some c => simp [hc]
  · intro h1 h2
    rw [wasActiveInMonth, h1, h2]
    simp [dle]
  · intro c hc hce h1
    rw [wasActiveInMonth, hc, hce, h1]
    simp [dle]
  · intro c hc h1 h2
    rw [wasActiveInMonth, hc]
    simp only [dlt, decide_eq_true_eq] at h1 h2
    have : dle ⟨m + 1, 0⟩ c = false := by
      simp only [dle, decide_eq_false_iff_not]
      rcases c with ⟨cm, cd⟩
      omega
    simp [this]

def subW2a : Subscription := ⟨1, 1, "active", ⟨4, 0⟩, none, none, 29⟩

def subW2b : Subscription := ⟨2, 2, "canceled", ⟨4, 7⟩, none, some ⟨5, 0⟩, 29⟩

def subW2c : Subscription := ⟨3, 3, "canceled", ⟨4, 2⟩, none, some ⟨4, 20⟩, 29⟩

theorem c2_witness :
    wasActiveInMonth subW2a 4 = true ∧ wasActiveInMonth subW2b 4 = true ∧
      wasActiveInMonth subW2c 4 = false :=
  ⟨(c2_active_predicate 4 subW2a).2.1 rfl rfl,
   (c2_active_predicate 4 subW2b).2.2.1 ⟨5, 0⟩ rfl rfl (by decide),
   (c2_active_predicate 4 subW2c).2.2.2 ⟨4, 20⟩ rfl (by decide) (by decide)⟩

/-- The face monetary value of a subscription item: `unit_amount * quantity`,
expressed in currency units (Stripe stores `unit_amount` in cents, and the
pipeline divides by 100 throughout). -/
def faceValue (it : RawItem) : ℚ :=
  resolvedUnit it * resolvedQty it / 100

/-- Claim C9: the extracted record's monthly-equivalent `mrr_amount` is the
item's face value for a monthly price, the face value divided by 12 for a
yearly price, and the face value multiplied by 4.33 for a weekly price. -/
theorem c9_mrr_normalization (r : RawSub) (item : RawItem) (rest : List RawItem)
    (T : Date) (hitems : r.items = item :: rest) :
    (item.recurring = some (some "month") → (mkRecord r T).mrr_amount = faceValue item) ∧
    (item.recurring = some (some "year") → (mkRecord r T).mrr_amount = faceValue item / 12) ∧
    (item.recurring = some (some "week") →
      (mkRecord r T).mrr_amount = faceValue item * (433 / 100)) := by
  refine ⟨?_, ?_, ?_⟩ <;> intro hr
  · simp only [mkRecord, computeMrrAmount, hitems, hr, Option.getD_some, faceValue]
    split_ifs with h1
    · rfl
    · exact absurd trivial h1
  · simp only [mkRecord, computeMrrAmount, hitems, hr, Option.getD_some, faceValue]
    split_ifs with h1
    · exact absurd h1 (by decide)
    · ring
  · simp only [mkRecord, computeMrrAmount, hitems, hr, Option.getD_some, faceValue]
    split_ifs with h1 h2
    · exact absurd h1 (by decide)
    · exact absurd h2 (by decide)
    · ring

def itemW9m : RawItem := ⟨some 7900, some 1, some (some "month")⟩

def itemW9y : RawItem := ⟨some 60000, some 2, some (some "year")⟩

def itemW9w : RawItem := ⟨some 500, some 1, some (some "week")⟩

def rawW9m : RawSub := ⟨1, 1, "active", [itemW9m], some ⟨0, 0⟩, none, none⟩

def rawW9y : RawSub := ⟨2, 2, "active", [itemW9y], some ⟨0, 0⟩, none, none⟩

def rawW9w : RawSub := ⟨3, 3, "active", [itemW9w], some ⟨0, 0⟩, none, none⟩

theorem c9_witness :
    (mkRecord rawW9m ⟨0, 0⟩).mrr_amount = faceValue itemW9m ∧
    (mkRecord rawW9y ⟨0, 0⟩).mrr_amount = faceValue itemW9y / 12 ∧
    (mkRecord rawW9w ⟨0, 0⟩).mrr_amount = faceValue itemW9w * (433 / 100) :=
  ⟨(c9_mrr_normalization rawW9m itemW9m [] ⟨0, 0⟩ rfl).1 rfl,
   (c9_mrr_normalization rawW9y itemW9y [] ⟨0, 0⟩ rfl).2.1 rfl,
   (c9_mrr_normalization rawW9w itemW9w [] ⟨0, 0⟩ rfl).2.2 rfl⟩

def rawC6 : RawSub := ⟨1, 1, "active", [⟨some 7900, some 1, some (some "month")⟩], none, none, none⟩

def exT : Date := ⟨5, 3⟩

/-- Claim C6 counterexample: a subscription record with a missing
`start_date` is NOT excluded from the aggregates.  `_add_subscription_to_data`
substitutes the extraction time for the missing timestamp, after which the
record contributes its full `mrr_amount` to the extraction month's total, is
counted as an active and a new customer there, and makes that month an
emitted bucket. -/
theorem c6_counterexample :
    totalMrr (addSubscriptionToData rawC6 [] exT) 5 = 79 ∧
    activeCustomers (addSubscriptionToData rawC6 [] exT) 5 = 1 ∧
    newCustomers (addSubscriptionToData rawC6 [] exT) 5 = 1 ∧
    emittedMonths (addSubscriptionToData rawC6 [] exT) 5 = [5] := by
  refine ⟨?_, by decide, by decide, by decide⟩
  simp [totalMrr, addSubscriptionToData, mkRecord, computeMrrAmount, resolvedUnit, resolvedQty,
    rawC6, exT, wasActiveInMonth, dle]
  norm_num

/-- Claim C6 (amended): on a missing timestamp the extraction step completes
and applies a safe fallback — a missing `start_date` is replaced by the
extraction time and a missing `canceled_at` is stored as NULL — but the
record is NOT excluded: it still participates in the aggregates (in
particular it satisfies the active-in-month predicate for the extraction
month). -/
theorem c6_missing_timestamp_fallback (r : RawSub) (T : Date)
    (hs : r.start_date = none) (hc : r.canceled_at = none) :
    addSubscriptionToData r [] T = [mkRecord r T] ∧
    (mkRecord r T).start_date = T ∧
    (mkRecord r T).canceled_at = none ∧
    wasActiveInMonth (mkRecord r T) T.m = true := by
  refine ⟨by simp [addSubscriptionToData], by simp [mkRecord, hs], by simp [mkRecord, hc], ?_⟩
  simp only [wasActiveInMonth, mkRecord, hs, hc, Option.getD_none]
  simp only [dle, decide_eq_true_eq]
  simp

theorem c6_amended_witness : wasActiveInMonth (mkRecord rawC6 exT) 5 = true :=
  (c6_missing_timestamp_fallback rawC6 exT rfl rfl).2.2.2

theorem mrrRows_shape (subs : List Subscription) :
    ∀ (ms : List Int) (acc : Option ℚ) (r : MrrRow), r ∈ mrrRows subs acc ms →
      ∃ m g, r = mkMrrRow subs m g := by
  intro ms
  induction ms with
  | nil => intro acc r hr; simp [mrrRows] at hr
  | cons m ms ih =>
    intro acc r hr
    rw [mrrRows, List.mem_cons] at hr
    rcases hr with h | h
    · exact ⟨m, _, h⟩
    · exact ih _ r h

/-- Claim C7: any emitted summary row with `active_customers = 0` carries
`average_revenue_per_user = 0` and `churn_rate = 0` (the `SAFE_DIVIDE` /
`or 0` combination maps the undefined division to zero; the computation is
total, so no division error can occur). -/
theorem c7_zero_guard (subs : List Subscription) (todayM : Int) (r : MrrRow)
    (hr : r ∈ mrrSummary subs todayM) (h0 : r.active_customers = 0) :
    r.average_revenue_per_user = 0 ∧ r.churn_rate = 0 := by
  obtain ⟨m, g, rfl⟩ := mrrRows_shape subs (emittedMonths subs todayM) none r hr
  simp only [mkMrrRow] at h0 ⊢
  rw [h0]
  simp [safeDiv]

def W7 : List Subscription := [⟨1, 1, "canceled", ⟨0, 5⟩, none, some ⟨0, 20⟩, 29⟩]

theorem c7_witness :
    ((mrrSummary W7 0).get ⟨0, by decide⟩).average_revenue_per_user = 0 ∧
    ((mrrSummary W7 0).get ⟨0, by decide⟩).churn_rate = 0 :=
  c7_zero_guard W7 0 _ (List.get_mem _ _ _) (by decide)

/-- The data-model invariant on an extracted record: a canceled
subscription's cancellation date is on or after its start date. -/
def invOk (s : Subscription) : Bool :=
  match s.canceled_at with
  | none => true
  | some c => dle s.start_date c

theorem sum_filter_cons (p : Subscription → Bool) (s : Subscription) (l : List Subscription) :
    (((s :: l).filter p).map (fun t => t.mrr_amount)).sum =
      (if p s = true then s.mrr_amount else 0) +
        ((l.filter p).map (fun t => t.mrr_amount)).sum := by
  by_cases h : p s = true <;> simp [List.filter_cons, h]

theorem conservation_per_sub (s : Subscription) (m : Int)
    (hinv : invOk s = true)
    (hb1 : s.start_date ≠ ⟨m + 1, 0⟩) (hb2 : s.start_date ≠ ⟨m + 2, 0⟩) :
    (if wasActiveInMonth s (m + 1) = true then s.mrr_amount else 0) =
      (if wasActiveInMonth s m = true then s.mrr_amount else 0) +
        (if startedInMonth s (m + 1) = true then s.mrr_amount else 0) -
        (if canceledInMonth s (m + 1) = true then s.mrr_amount else 0) := by
  rcases s with ⟨sid, cid, st, ⟨sm, sd⟩, ea, ca, v⟩
  have hb1' : ¬(sm = m + 1 ∧ sd = 0) := fun h => hb1 (by rw [h.1, h.2])
  have hb2' : ¬(sm = m + 2 ∧ sd = 0) := fun h => hb2 (by rw [h.1, h.2])
  rcases ca with _ | ⟨cm, cd⟩
  · simp only [wasActiveInMonth, startedInMonth, canceledInMonth, dle, dlt,
      Bool.and_eq_true, Bool.and_true, decide_eq_true_eq]
    split_ifs <;> first | ring1 | (exfalso; omega) | contradiction
  · have hinv' : sm < cm ∨ (sm = cm ∧ sd ≤ cd) := by
      simpa [invOk, dle] using hinv
    simp only [wasActiveInMonth, startedInMonth, canceledInMonth, dle, dlt,
      Bool.and_eq_true, Bool.and_true, decide_eq_true_eq]
    split_ifs <;> first | ring1 | (exfalso; omega)

/-- Claim C3 (amended): MRR conservation
`total_mrr(M+1) = total_mrr(M) + new_mrr(M+1) − churned_mrr(M+1)` holds under
the data-model invariant `canceled_at >= start_date` provided no subscription
starts exactly on the first day of bucket `M+1` or of bucket `M+2`; the
inclusive `start_date <= M_end` boundary of the activity predicate counts a
subscription starting exactly at a bucket's first day as active already in
the preceding bucket and again as new, which breaks the identity there. -/
theorem c3_conservation_amended (subs : List Subscription) (m : Int)
    (hinv : ∀ s ∈ subs, invOk s = true)
    (hb : ∀ s ∈ subs, s.start_date ≠ ⟨m + 1, 0⟩ ∧ s.start_date ≠ ⟨m + 2, 0⟩) :
    totalMrr subs (m + 1) = totalMrr subs m + newMrr subs (m + 1) - churnedMrr subs (m + 1) := by
  induction subs with
  | nil => simp [totalMrr, newMrr, churnedMrr]
  | cons s l ih =>
    have hih := ih (fun t ht => hinv t (List.mem_cons_of_mem s ht))
      (fun t ht => hb t (List.mem_cons_of_mem s ht))
    have hps := conservation_per_sub s m (hinv s (List.mem_cons_self s l))
      (hb s (List.mem_cons_self s l)).1 (hb s (List.mem_cons_self s l)).2
    simp only [totalMrr, newMrr, churnedMrr] at hih hps ⊢
    rw [sum_filter_cons, sum_filter_cons, sum_filter_cons, sum_filter_cons, hih, hps]
    ring

def W3 : List Subscription :=
  [⟨1, 1, "active", ⟨0, 14⟩, none, none, 100⟩, ⟨2, 2, "active", ⟨1, 0⟩, none, none, 50⟩]

/-- Claim C3 counterexample: two never-canceled subscriptions, one starting on
day 14 of month 0 (amount 100) and one starting exactly on the first day of
month 1 (amount 50), with the month sequence `[0, 1]`.  The second is counted
active already in month 0 (`start_date <= M_end` is inclusive) and again as
new in month 1, so `total_mrr(1) = 150` while
`total_mrr(0) + new_mrr(1) - churned_mrr(1) = 150 + 50 - 0 = 200`. -/
theorem c3_counterexample :
    monthSeq W3 1 = [0, 1] ∧
    ¬(totalMrr W3 (0 + 1) = totalMrr W3 0 + newMrr W3 (0 + 1) - churnedMrr W3 (0 + 1)) := by
  refine ⟨by decide, ?_⟩
  simp [totalMrr, newMrr, churnedMrr, W3, wasActiveInMonth, startedInMonth, canceledInMonth,
    dle, dlt]

def W3b : List Subscription :=
  [⟨1, 1, "active", ⟨0, 14⟩, none, none, 100⟩, ⟨2, 2, "canceled", ⟨1, 5⟩, none, some ⟨1, 20⟩, 50⟩]

theorem c3_amended_witness :
    totalMrr W3b (0 + 1) = totalMrr W3b 0 + newMrr W3b (0 + 1) - churnedMrr W3b (0 + 1) :=
  c3_conservation_amended W3b 0 (by decide) (by decide)

theorem foldl_dmin_const :
    ∀ (l : List Date) (d v : Date), d = v → (∀ x ∈ l, x = v) → l.foldl dmin d = v
  | [], _, _, hd, _ => hd
  | x :: l, d, v, hd, h => by
    have hx : x = v := h x (List.mem_cons_self x l)
    have hstep : dmin d x = v := by
      rw [hd, hx]
      unfold dmin
      split <;> rfl
    exact foldl_dmin_const l (dmin d x) v hstep (fun y hy => h y (List.mem_cons_of_mem x hy))

theorem uniq_sub_start_month (subs : List Subscription)
    (huniq : ∀ s ∈ subs, ∀ t ∈ subs, s.customer_id = t.customer_id → s = t)
    {cust : Nat} {coh : Int} (hcoh : cohortMonth subs cust = some coh)
    {s : Subscription} (hs : s ∈ subs) (hcust : s.customer_id = cust) :
    s.start_date.m = coh := by
  have hmemF : s ∈ subs.filter (fun t => t.customer_id == cust) := by
    rw [List.mem_filter]
    exact ⟨hs, by simpa using hcust⟩
  have hall : ∀ t ∈ subs.filter (fun t => t.customer_id == cust), t = s := by
    intro t ht
    have ht' := List.mem_filter.mp ht
    refine huniq t ht'.1 s hs ?_
    have : t.customer_id = cust := by simpa using ht'.2
    rw [this, hcust]
  rw [cohortMonth] at hcoh
  cases hF : (subs.filter (fun t => t.customer_id == cust)).map (fun t => t.start_date) with
  | nil =>
    exact absurd (List.mem_map_of_mem (fun t => t.start_date) hmemF) (by rw [hF]; simp)
  | cons d ds =>
    rw [hF] at hcoh
    simp only at hcoh
    have hd : ∀ x ∈ d :: ds, x = s.start_date := by
      rw [← hF]
      intro x hx
      obtain ⟨t, ht, rfl⟩ := List.mem_map.mp hx
      rw [hall t ht]
    have hfold : ds.foldl dmin d = s.start_date :=
      foldl_dmin_const ds d s.start_date (hd d (List.mem_cons_self d ds))
        (fun y hy => hd y (List.mem_cons_of_mem d hy))
    rw [hfold] at hcoh
    exact Option.some_injective _ hcoh

theorem length_filter_mono_of_mem {α : Type} {p q : α → Bool} :
    ∀ (l : List α), (∀ x ∈ l, q x = true → p x = true) →
      (l.filter q).length ≤ (l.filter p).length
  | [], _ => by simp
  | a :: l, h => by
    have ih := length_filter_mono_of_mem l (fun x hx => h x (List.mem_cons_of_mem a hx))
    by_cases hq : q a = true
    · rw [List.filter_cons_of_pos hq, List.filter_cons_of_pos (h a (List.mem_cons_self a l) hq)]
      simpa using ih
    · rw [List.filter_cons_of_neg (by simpa using hq)]
      by_cases hp : p a = true
      · rw [List.filter_cons_of_pos hp]
        exact le_trans ih (by simp)
      · rw [List.filter_cons_of_neg (by simpa using hp)]
        exact ih

/-- Claim C5: for a fixed cohort, when every customer has at most one
subscription (no win-back), the cohort engine's active-customer count is
non-increasing in the period number: `active_customers(p+1) <=
active_customers(p)` for every period `p` (in particular for every
`0 <= p < 12` the query emits). -/
theorem c5_cohort_monotone (subs : List Subscription) (coh : Int) (p : Nat)
    (huniq : ∀ s ∈ subs, ∀ t ∈ subs, s.customer_id = t.customer_id → s = t) :
    cohortActiveCount subs coh (p + 1) ≤ cohortActiveCount subs coh p := by
  unfold cohortActiveCount
  apply length_filter_mono_of_mem
  intro cust hcust hact
  have hcoh : cohortMonth subs cust = some coh := by
    have h2 := (List.mem_filter.mp hcust).2
    simpa using h2
  rw [customerActiveAt, List.any_eq_true] at hact ⊢
  obtain ⟨s, hs, hsp⟩ := hact
  rw [Bool.and_eq_true] at hsp
  obtain ⟨hcid, hact'⟩ := hsp
  have hcid' : s.customer_id = cust := by simpa using hcid
  have hm : s.start_date.m = coh := uniq_sub_start_month subs huniq hcoh hs hcid'
  refine ⟨s, hs, ?_⟩
  rw [Bool.and_eq_true]
  refine ⟨hcid, ?_⟩
  rw [cohortActiveSub] at hact' ⊢
  cases hc : s.canceled_at with
  | none =>
    rw [hc] at hact'
    simp only [Bool.and_true]
    simp only [dle, decide_eq_true_eq]
    omega
  | some c =>
    rw [hc] at hact'
    rw [Bool.and_eq_true] at hact' ⊢
    obtain ⟨h1, h2⟩ := hact'
    simp only [dle, decide_eq_true_eq] at h1 h2 ⊢
    rcases c with ⟨cm, cd⟩
    constructor
    · push_cast at *
      omega
    · push_cast at *
      omega

def W5 : List Subscription :=
  [⟨1, 1, "active", ⟨0, 5⟩, none, none, 29⟩, ⟨2, 2, "canceled", ⟨0, 6⟩, none, some ⟨2, 9⟩, 29⟩]

theorem c5_witness : cohortActiveCount W5 0 (1 + 1) ≤ cohortActiveCount W5 0 1 :=
  c5_cohort_monotone W5 0 1 (by decide)

/-- The growth-rate value prescribed by the spec:
`(total_mrr − prev_month_total_mrr) / prev_month_total_mrr × 100` where
`prev_month` is the immediately preceding bucket in the ordered month
sequence, and `0` for the first bucket (`m = lo`) or when the previous
bucket's total is `0`. -/
def specGrowthRate (subs : List Subscription) (lo m : Int) : ℚ :=
  if totalMrr subs (m - 1) = 0 ∨ m = lo then 0
  else (totalMrr subs m - totalMrr subs (m - 1)) / totalMrr subs (m - 1) * 100

theorem active_zero_iff (subs : List Subscription) (m : Int) :
    activeCustomers subs m = 0 ↔ ∀ s ∈ subs, wasActiveInMonth s m = false := by
  rw [activeCustomers, List.length_eq_zero, List.dedup_eq_nil, List.map_eq_nil_iff,
    List.filter_eq_nil_iff]
  simp

theorem churned_zero_iff (subs : List Subscription) (m : Int) :
    churnedCustomers subs m = 0 ↔ ∀ s ∈ subs, canceledInMonth s m = false := by
  rw [churnedCustomers, List.length_eq_zero, List.dedup_eq_nil, List.map_eq_nil_iff,
    List.filter_eq_nil_iff]
  simp

theorem total_zero_of_no_active (subs : List Subscription) (m : Int)
    (h : ∀ s ∈ subs, wasActiveInMonth s m = false) : totalMrr subs m = 0 := by
  rw [totalMrr, List.filter_eq_nil_iff.mpr (fun a ha => by simp [h a ha])]
  simp

theorem step_active (s : Subscription) (m : Int) (h : wasActiveInMonth s m = true) :
    wasActiveInMonth s (m + 1) = true ∨ canceledInMonth s (m + 1) = true := by
  rcases s with ⟨sid, cid, st, ⟨sm, sd⟩, ea, ca, v⟩
  rcases ca with _ | ⟨cm, cd⟩ <;>
    simp only [wasActiveInMonth, canceledInMonth, dle, dlt, Bool.and_eq_true, Bool.and_true,
      decide_eq_true_eq] at h ⊢ <;>
    omega

theorem emitP_false_elim (subs : List Subscription) (m : Int) (h : emitP subs m = false) :
    activeCustomers subs m = 0 ∧ newCustomers subs m = 0 ∧ churnedCustomers subs m = 0 := by
  rw [emitP] at h
  simp only [Bool.or_eq_false_iff, decide_eq_false_iff_not] at h
  omega

theorem suppressed_total_zero (subs : List Subscription) (m : Int)
    (h : emitP subs m = false) : totalMrr subs m = 0 :=
  total_zero_of_no_active subs m ((active_zero_iff subs m).mp (emitP_false_elim subs m h).1)

theorem gap_total_zero (subs : List Subscription) (m : Int)
    (h : emitP subs (m + 1) = false) : totalMrr subs m = 0 := by
  obtain ⟨ha, -, hc⟩ := emitP_false_elim subs (m + 1) h
  apply total_zero_of_no_active
  intro s hs
  by_contra hT
  simp only [Bool.not_eq_false] at hT
  rcases step_active s m hT with h1 | h1
  · have h2 := (active_zero_iff subs (m + 1)).mp ha s hs
    rw [h1] at h2
    cases h2
  · have h2 := (churned_zero_iff subs (m + 1)).mp hc s hs
    rw [h1] at h2
    cases h2

theorem total_nonneg (subs : List Subscription) (m : Int)
    (hpos : ∀ s ∈ subs, 0 ≤ s.mrr_amount) : 0 ≤ totalMrr subs m := by
  apply List.sum_nonneg
  intro x hx
  obtain ⟨s, hsmem, rfl⟩ := List.mem_map.mp hx
  exact hpos s (List.mem_filter.mp hsmem).1

/-- `a` and `b` are in order and every month strictly between them fails the
emission filter. -/
def gapRel (p : Int → Bool) (a b : Int) : Prop :=
  a < b ∧ ∀ x : Int, a < x → x < b → p x = false

theorem chain_filter (p : Int → Bool) :
    ∀ (n : Nat) (lo a : Int), a < lo → (∀ x, a < x → x < lo → p x = false) →
      List.Chain (gapRel p) a ((listInts lo n).filter p)
  | 0, lo, a, _, _ => by
    rw [listInts]
    exact List.Chain.nil
  | n + 1, lo, a, h1, h2 => by
    rw [listInts]
    by_cases hp : p lo = true
    · rw [List.filter_cons_of_pos hp]
      refine List.chain_cons.mpr ⟨⟨h1, h2⟩, ?_⟩
      exact chain_filter p n (lo + 1) lo (by omega) (fun x hx1 hx2 => absurd hx2 (by omega))
    · rw [List.filter_cons_of_neg (by simpa using hp)]
      refine chain_filter p n (lo + 1) a (by omega) ?_
      intro x hx1 hx2
      by_cases hxlo : x = lo
      · rw [hxlo]
        simpa using hp
      · exact h2 x hx1 (by omega)

theorem c8_aux (subs : List Subscription) (lo : Int)
    (hpos : ∀ s ∈ subs, 0 ≤ s.mrr_amount) :
    ∀ (E : List Int) (a : Int) (acc : Option ℚ),
      List.Chain (gapRel (fun m => emitP subs m)) a E →
      ((acc = none ∧ a = lo - 1) ∨ (acc = some (totalMrr subs a) ∧ lo ≤ a)) →
      ∀ r ∈ mrrRows subs acc E, r.growth_rate = specGrowthRate subs lo r.month_start
  | [], _, _, _, _ => by
    intro r hr
    rw [mrrRows] at hr
    cases hr
  | e :: es, a, acc, hchain, hinv => by
    obtain ⟨hgap, hchain'⟩ := List.chain_cons.mp hchain
    intro r hr
    rw [mrrRows, List.mem_cons] at hr
    rcases hr with rfl | hr
    · simp only [mkMrrRow]
      rcases hinv with ⟨rfl, rfl⟩ | ⟨rfl, hloa⟩
      · simp only [growthRate, specGrowthRate]
        have h1 : lo - 1 < e := hgap.1
        by_cases helo : e = lo
        · rw [if_pos (Or.inr helo)]
        · have hsup : emitP subs (e - 1) = false := hgap.2 (e - 1) (by omega) (by omega)
          rw [if_pos (Or.inl (suppressed_total_zero subs (e - 1) hsup))]
      · have hab := hgap.1
        by_cases hcase : e = a + 1
        · subst hcase
          simp only [growthRate, specGrowthRate, add_sub_cancel_right]
          by_cases hz : totalMrr subs a = 0
          · rw [if_pos (Or.inl hz), hz, if_neg (lt_irrefl 0)]
          · have hlt : 0 < totalMrr subs a :=
              lt_of_le_of_ne (total_nonneg subs a hpos) (Ne.symm hz)
            have hne : ¬(totalMrr subs a = 0 ∨ a + 1 = lo) := by
              rintro (h | h)
              · exact hz h
              · omega
            rw [if_pos hlt, if_neg hne]
        · have hgap1 : emitP subs (a + 1) = false := hgap.2 (a + 1) (by omega) (by omega)
          have hta : totalMrr subs a = 0 := gap_total_zero subs a hgap1
          have hgap2 : emitP subs (e - 1) = false := hgap.2 (e - 1) (by omega) (by omega)
          simp only [growthRate, specGrowthRate]
          rw [if_pos (Or.inl (suppressed_total_zero subs (e - 1) hgap2)), hta,
            if_neg (lt_irrefl 0)]
    · refine c8_aux subs lo hpos es e (some (totalMrr subs e)) hchain' ?_ r hr
      right
      refine ⟨rfl, ?_⟩
      rcases hinv with ⟨-, rfl⟩ | ⟨-, hloa⟩
      · have := hgap.1
        omega
      · have := hgap.1
        omega

/-- Claim C8: every emitted summary row's `growth_rate` equals the
spec-prescribed value `(total_mrr − prev_total) / prev_total × 100` relative
to the immediately preceding bucket of the ordered month sequence, with the
zero-guard: `0` for the first bucket of the sequence and whenever the
preceding bucket's total is `0` (amounts are nonnegative, as produced by the
extraction). -/
theorem c8_growth_rate (subs : List Subscription) (todayM : Int)
    (hpos : ∀ s ∈ subs, 0 ≤ s.mrr_amount) :
    ∀ r ∈ mrrSummary subs todayM,
      r.growth_rate = specGrowthRate subs (minStartMonth subs) r.month_start := by
  intro r hr
  refine c8_aux subs (minStartMonth subs) hpos (emittedMonths subs todayM)
    (minStartMonth subs - 1) none ?_ (Or.inl ⟨rfl, rfl⟩) r hr
  rw [emittedMonths]
  cases subs with
  | nil =>
    rw [monthSeq]
    exact List.Chain.nil
  | cons s ss =>
    simp only [monthSeq, monthRange]
    exact chain_filter _ _ _ _ (by omega) (fun x hx1 hx2 => absurd hx1 (by omega))

def W8 : List Subscription :=
  [⟨1, 1, "active", ⟨0, 5⟩, none, none, 100⟩, ⟨2, 2, "active", ⟨1, 5⟩, none, none, 100⟩]

theorem c8_witness :
    ((mrrSummary W8 1).get ⟨1, by decide⟩).growth_rate =
      specGrowthRate W8 (minStartMonth W8) (((mrrSummary W8 1).get ⟨1, by decide⟩).month_start) :=
  c8_growth_rate W8 1 (by decide) _ (List.get_mem _ _ _)
